import Mathlib

/-!
Verification of the tool registry and dispatch engine of `mcp_server.py`.

The embedding models the JSON values flowing through the server, the
registry built by `load_tools`, the discovery endpoint `get_tools`, the
dispatcher `_dispatch_tool` (here `dispatch_tool`) and the JSON-RPC
endpoint `mcp_endpoint`.  Handlers are modelled as an environment
mapping a derived identifier to a function from a parameter bag to a
value or a raised exception; this mirrors `globals().get(...)` in the
source, where the handler namespace is the module's global scope and the
concrete handlers are external stubs.
-/

/-- A JSON-like value, as produced by `json.load` and passed around the
server unmodified. -/
inductive Value where
  | null : Value
  | bool (b : Bool) : Value
  | int (n : Int) : Value
  | str (s : String) : Value
  | arr (elems : List Value) : Value
  | obj (fields : List (String × Value)) : Value

/-- A tool descriptor record: a JSON object, kept as its ordered field
list (one entry per key, as `json.load` yields for an object). -/
abbrev Record := List (String × Value)

/-- The registry mapping built by `load_tools`: an insertion-ordered
dictionary from name value to descriptor record (Python `dict`
semantics). -/
abbrev Dict := List (Value × Record)

/-- Equality test used for dictionary keys.  Only hashable (scalar)
values ever become keys in `load_tools` (an unhashable key raises
`TypeError` there), so composite values never reach this comparison. -/
def keyEq : Value → Value → Bool
  | .null, .null => true
  | .bool a, .bool b => a == b
  | .int a, .int b => a == b
  | .str a, .str b => a == b
  | _, _ => false

/-- Whether a value may be used as a Python dictionary key: lists and
dicts are unhashable. -/
def Value.hashable : Value → Bool
  | .arr _ => false
  | .obj _ => false
  | _ => true

/-- `r["k"]` on a JSON object: the value at the first (and only) field
named `k`, or absent (Python raises `KeyError`, modelled by `none`). -/
def lookupField (r : Record) (k : String) : Option Value :=
  (r.find? (fun p => p.1 == k)).map (·.2)

/-- `d.get(k)` on a Python dictionary. -/
def dictFind (d : Dict) (k : Value) : Option Record :=
  (d.find? (fun e => keyEq e.1 k)).map (·.2)

/-- `d[k] = v` on a Python dictionary: an existing key keeps its
position and gets the new value; a fresh key is appended. -/
def dictInsert (d : Dict) (k : Value) (v : Record) : Dict :=
  match d with
  | [] => [(k, v)]
  | (k₀, v₀) :: rest =>
    if keyEq k₀ k then (k₀, v) :: rest else (k₀, v₀) :: dictInsert rest k v

/-- Python `str.replace` on character lists: replaces the leftmost
non-overlapping occurrences of `pat`, scanning left to right.  The
server only ever calls it with the one-character pattern `"."`; for the
empty pattern (which the server never uses) the input is returned
unchanged. -/
def replaceList (pat rep : List Char) : List Char → List Char
  | [] => []
  | c :: rest =>
    if pat.isPrefixOf (c :: rest) ∧ pat ≠ [] then
      rep ++ replaceList pat rep (rest.drop (pat.length - 1))
    else
      c :: replaceList pat rep rest
termination_by s => s.length
decreasing_by
  · simp only [List.length_cons, List.length_drop]
    omega
  · simp only [List.length_cons]
    omega

/-- `s.replace(pat, rep)` from the source, lifted to `String`. -/
def pyReplace (s pat rep : String) : String :=
  ⟨replaceList pat.data rep.data s.data⟩

/-- `func_name = method.replace(".", "_")` from `_dispatch_tool`. -/
def func_name (method : String) : String :=
  pyReplace method "." "_"

/-- The identifier the dispatcher resolves in the handler namespace:
`f"tool_{func_name}"`. -/
def handler_key (method : String) : String :=
  "tool_" ++ func_name method

/-- A Python exception, as far as the endpoint's `except` clauses can
distinguish them: `NotImplementedError` is caught separately from every
other `Exception`. -/
inductive PyExn where
  | valueError (msg : String) : PyExn
  | notImplementedError (msg : String) : PyExn
  | other (msg : String) : PyExn

/-- `str(exc)`: the exception's message. -/
def PyExn.message : PyExn → String
  | .valueError m => m
  | .notImplementedError m => m
  | .other m => m

/-- A parameter bag: the `params` object of a request. -/
abbrev Params := List (String × Value)

/-- A handler: called with the parameter bag (Python binds the bag's
entries as keyword arguments; a binding failure such as an unexpected or
missing argument is a raised exception, as is any failure inside the
handler body). -/
abbrev Handler := Params → Except PyExn Value

/-- The handler namespace: `globals()` restricted to function lookup by
name, `none` when no such function is defined. -/
abbrev HandlerEnv := String → Option Handler

/-- The catalog source: `none` models a malformed or unreadable
`tools.json` (where `open`/`json.load` raises), `some tools` a
successfully parsed top-level list of records. -/
abbrev CatalogSource := Option (List Record)

/-- The dictionary comprehension `{tool["name"]: tool for tool in
tools}`: iterates in source order; a record without a `"name"` field
raises `KeyError`, an unhashable name value raises `TypeError`, and
either failure aborts the whole comprehension (`none`). -/
def buildLookup (acc : Dict) : List Record → Option Dict
  | [] => some acc
  | t :: rest =>
    match lookupField t "name" with
    | none => none
    | some k => if k.hashable then buildLookup (dictInsert acc k t) rest else none

/-- `load_tools` from the source: parse the catalog and build the
name-keyed lookup; on any exception, log and fall back to an empty
registry. -/
def load_tools (source : CatalogSource) : Dict :=
  match source with
  | none => []
  | some tools => (buildLookup [] tools).getD []

/-- `get_tools` from the source: `list(TOOLS_LOOKUP.values())`, the
descriptors in insertion order. -/
def get_tools (d : Dict) : List Record :=
  d.map (·.2)

/-- `_dispatch_tool` from the source.  `tool_def` is falsy when the
lookup misses (`None`) or yields an empty dict; either raises
`ValueError`.  A missing handler raises `NotImplementedError`.  A
`None` parameter bag is normalized to empty before the handler call. -/
def dispatch_tool (d : Dict) (handlers : HandlerEnv) (method : String)
    (params : Option Params) : Except PyExn Value :=
  match dictFind d (.str method) with
  | none => .error (.valueError ("Unknown tool \x27" ++ method ++ "\x27"))
  | some tool_def =>
    if tool_def.isEmpty then
      .error (.valueError ("Unknown tool \x27" ++ method ++ "\x27"))
    else
      match handlers (handler_key method) with
      | none =>
        .error (.notImplementedError
          ("No handler implemented for tool \x27" ++ method ++ "\x27"))
      | some handler => handler (params.getD [])

/-- The `JSONRPCRequest` pydantic model from the source. -/
structure JSONRPCRequest where
  jsonrpc : String
  id : Option Int
  method : String
  params : Option Params

/-- The `error` object of a JSON-RPC failure response. -/
structure ErrorObj where
  code : Int
  message : String

/-- A JSON-RPC response envelope as the endpoint builds it: the literal
`"2.0"` tag, the echoed id, and either a `result` or an `error` key. -/
structure Response where
  jsonrpc : String
  id : Option Int
  result : Option Value
  error : Option ErrorObj

/-- What `mcp_endpoint` does with a request: either an HTTP-level
rejection (`raise HTTPException`) or a JSON-RPC response body. -/
inductive EndpointResult where
  | httpError (status : Nat) (detail : String) : EndpointResult
  | response (r : Response) : EndpointResult

/-- `mcp_endpoint` from the source: reject a wrong protocol version at
the transport level, otherwise dispatch; `except NotImplementedError`
maps to code `-32601`, `except Exception` to `-32603`. -/
def mcp_endpoint (d : Dict) (handlers : HandlerEnv) (req : JSONRPCRequest) :
    EndpointResult :=
  if req.jsonrpc ≠ "2.0" then
    .httpError 400 "Invalid JSON‑RPC version"
  else
    match dispatch_tool d handlers req.method req.params with
    | .ok result => .response ⟨"2.0", req.id, some result, none⟩
    | .error (.notImplementedError m) =>
      .response ⟨"2.0", req.id, none, some ⟨-32601, m⟩⟩
    | .error e =>
      .response ⟨"2.0", req.id, none, some ⟨-32603, e.message⟩⟩

/-- The JSON-RPC error code `mcp_endpoint` assigns to a raised
exception: `-32601` for `NotImplementedError` (its dedicated `except`
clause), `-32603` for every other `Exception`. -/
def exceptionCode : PyExn → Int
  | .notImplementedError _ => -32601
  | _ => -32603

/-! ### Fixtures -/

/-- Catalog record for a tool named `echo.ping`. -/
def echoPing : Record := [("name", Value.str "echo.ping")]

/-- A one-tool catalog, the spec's concrete scenario. -/
def demoCatalog : List Record := [echoPing]

/-- The registry loaded from the one-tool catalog. -/
def demoLookup : Dict := load_tools (some demoCatalog)

/-- A handler namespace implementing nothing at all. -/
def noHandlers : HandlerEnv := fun _ => none

/-- A handler namespace where `tool_echo_ping` echoes its parameter bag
back as an object. -/
def echoEnv : HandlerEnv :=
  fun k => if k = "tool_echo_ping" then some (fun bag => .ok (.obj bag)) else none

/-- A handler namespace where `tool_echo_ping` raises
`NotImplementedError("boom")` from inside the handler body. -/
def raisingEnv : HandlerEnv :=
  fun k =>
    if k = "tool_echo_ping" then some (fun _ => .error (.notImplementedError "boom"))
    else none

/-- A handler namespace where `tool_echo_ping` raises an ordinary
exception carrying the message `disk full`. -/
def failEnv : HandlerEnv :=
  fun k =>
    if k = "tool_echo_ping" then some (fun _ => .error (.other "disk full"))
    else none

/-- Catalog record for a tool named `a.b` (dot separator). -/
def dotName : Record := [("name", Value.str "a.b")]

/-- Catalog record for a tool named `a_b` (underscore in the name). -/
def underscoreName : Record := [("name", Value.str "a_b")]

/-- A catalog carrying both `a.b` and `a_b`, whose derived handler
identifiers collide. -/
def collidingCatalog : List Record := [dotName, underscoreName]

/-- A handler environment implementing only `tool_a_b`. -/
def collideEnv : HandlerEnv :=
  fun k => if k = "tool_a_b" then some (fun _ => .ok .null) else none

/-- The spec scenario's invocation request:
`{jsonrpc:"2.0", id:7, method:"echo.ping", params:{"msg":"hi"}}`. -/
def pingRequest : JSONRPCRequest :=
  ⟨"2.0", some 7, "echo.ping", some [("msg", Value.str "hi")]⟩

/-- A request for a name absent from the one-tool catalog:
`{jsonrpc:"2.0", id:7, method:"echo.pong"}`. -/
def pongRequest : JSONRPCRequest :=
  ⟨"2.0", some 7, "echo.pong", none⟩

/-! ### Helper lemmas -/

/-- A one-character pattern replace is the character-wise map. -/
theorem replaceList_single (p r : Char) (l : List Char) :
    replaceList [p] [r] l = l.map (fun c => if c = p then r else c) := by
  induction l with
  | nil => simp [replaceList]
  | cons c rest ih =>
    by_cases hc : c = p
    · subst hc
      simp [replaceList, List.isPrefixOf, ih]
    · have hb : (p == c) = false := by
        rw [beq_eq_false_iff_ne]
        exact fun h => hc h.symm
      simp [replaceList, List.isPrefixOf, hb, hc, ih]

/-- `method.replace(".", "_")` maps every dot to an underscore,
character by character. -/
theorem pyReplace_dot (s : String) :
    pyReplace s "." "_" = ⟨s.data.map (fun c => if c = '.' then '_' else c)⟩ := by
  have h1 : (".").data = ['.'] := rfl
  have h2 : ("_").data = ['_'] := rfl
  simp [pyReplace, h1, h2, replaceList_single]

/-- The unimplemented-tool message is never equal to the unknown-tool
message for the same method name (their lengths differ). -/
theorem unimplemented_message_ne_unknown (m : String) :
    "No handler implemented for tool \x27" ++ m ++ "\x27"
      ≠ "Unknown tool \x27" ++ m ++ "\x27" := by
  intro h
  have hl := congrArg String.length h
  rw [String.length_append, String.length_append, String.length_append,
    String.length_append] at hl
  have l1 : ("No handler implemented for tool \x27").length = 33 := rfl
  have l2 : ("Unknown tool \x27").length = 14 := rfl
  rw [l1, l2] at hl
  omega

/-! ### C5 and C10: the handler-name transform -/

/-- C5: the handler identifier used for resolution equals the tool name
with every `'.'` replaced by `'_'`, prefixed with `tool_`; being a plain
function of the name alone, the transform is fixed and deterministic. -/
theorem handler_key_spec (name : String) :
    handler_key name =
      "tool_" ++ String.mk (name.data.map (fun c => if c = '.' then '_' else c)) := by
  simp only [handler_key, func_name, pyReplace_dot]

/-- C10: the handler-name transform is not injective: `a.b` and `a_b`
are distinct tool names deriving the same identifier, and when both are
in the catalog and that identifier is implemented, dispatching either
name invokes the same handler function on the same bag. -/
theorem handler_key_not_injective :
    handler_key "a.b" = handler_key "a_b" ∧ "a.b" ≠ "a_b" ∧
      ∀ (handlers : HandlerEnv) (h : Handler) (params : Option Params),
        handlers (handler_key "a.b") = some h →
          dispatch_tool (load_tools (some collidingCatalog)) handlers "a.b" params
              = h (params.getD []) ∧
            dispatch_tool (load_tools (some collidingCatalog)) handlers "a_b" params
              = h (params.getD []) := by
  have hkey : handler_key "a.b" = "tool_a_b" := by
    simp only [handler_key, func_name, pyReplace_dot]
    rfl
  have hkey2 : handler_key "a_b" = "tool_a_b" := by
    simp only [handler_key, func_name, pyReplace_dot]
    rfl
  refine ⟨hkey.trans hkey2.symm, by decide, fun handlers h params hh => ?_⟩
  have h1 : dictFind (load_tools (some collidingCatalog)) (Value.str "a.b")
      = some dotName := rfl
  have h2 : dictFind (load_tools (some collidingCatalog)) (Value.str "a_b")
      = some underscoreName := rfl
  rw [hkey] at hh
  constructor
  · simp [dispatch_tool, h1, dotName, hkey, hh]
  · simp [dispatch_tool, h2, underscoreName, hkey2, hh]

/-- Concrete run of `handler_key_not_injective`: with only `tool_a_b`
implemented, both `a.b` and `a_b` dispatch to it. -/
theorem handler_key_not_injective_witness :
    dispatch_tool (load_tools (some collidingCatalog)) collideEnv "a.b" none
        = Except.ok Value.null ∧
      dispatch_tool (load_tools (some collidingCatalog)) collideEnv "a_b" none
        = Except.ok Value.null := by
  have hk : handler_key "a.b" = "tool_a_b" := by
    simp only [handler_key, func_name, pyReplace_dot]
    rfl
  have henv : collideEnv (handler_key "a.b") = some (fun _ => .ok .null) := by
    rw [hk]
    simp [collideEnv]
  have h := handler_key_not_injective.2.2 collideEnv (fun _ => .ok .null) none henv
  exact ⟨h.1.trans rfl, h.2.trans rfl⟩

/-! ### C9: protocol-version validation -/

/-- C9: a request whose protocol-version tag differs from `"2.0"` is
rejected as a hard HTTP failure (status 400), not a JSON-RPC error
envelope; the rejection is the same for every registry and handler
namespace, so the dispatcher is never consulted. -/
theorem version_mismatch_is_transport_rejection (d : Dict) (handlers : HandlerEnv)
    (req : JSONRPCRequest) (hv : req.jsonrpc ≠ "2.0") :
    mcp_endpoint d handlers req = .httpError 400 "Invalid JSON‑RPC version" ∧
      ∀ r : Response, mcp_endpoint d handlers req ≠ .response r := by
  have h1 : mcp_endpoint d handlers req = .httpError 400 "Invalid JSON‑RPC version" := by
    simp [mcp_endpoint, hv]
  exact ⟨h1, fun r hr => by rw [h1] at hr; cases hr⟩

/-- Concrete run of `version_mismatch_is_transport_rejection` on a
request tagged `"1.0"`. -/
theorem version_mismatch_witness :
    mcp_endpoint demoLookup echoEnv ⟨"1.0", some 3, "echo.ping", none⟩
        = .httpError 400 "Invalid JSON‑RPC version" ∧
      ∀ r : Response,
        mcp_endpoint demoLookup echoEnv ⟨"1.0", some 3, "echo.ping", none⟩
          ≠ .response r :=
  version_mismatch_is_transport_rejection demoLookup echoEnv
    ⟨"1.0", some 3, "echo.ping", none⟩ (by decide)

/-! ### C2: successful dispatch -/

/-- C2: for a request naming a catalog tool with a registered handler
that accepts the parameter bag, the endpoint echoes the correlation id
and passes the handler's return value through verbatim as `result`,
with no `error` key; moreover every response the endpoint ever builds
carries exactly one of `result`/`error`. -/
theorem dispatch_success_passthrough (d : Dict) (handlers : HandlerEnv)
    (req : JSONRPCRequest) (td : Record) (h : Handler) (v : Value)
    (hv : req.jsonrpc = "2.0")
    (hd : dictFind d (.str req.method) = some td) (hne : td ≠ [])
    (hh : handlers (handler_key req.method) = some h)
    (hok : h (req.params.getD []) = .ok v) :
    mcp_endpoint d handlers req = .response ⟨"2.0", req.id, some v, none⟩ ∧
      ∀ (d₀ : Dict) (hs₀ : HandlerEnv) (req₀ : JSONRPCRequest) (r : Response),
        mcp_endpoint d₀ hs₀ req₀ = .response r →
          (r.result.isSome = true ∧ r.error = none) ∨
            (r.result = none ∧ r.error.isSome = true) := by
  constructor
  · have hemp : td.isEmpty = false := by
      cases td with
      | nil => exact absurd rfl hne
      | cons a l => rfl
    simp [mcp_endpoint, dispatch_tool, hv, hd, hemp, hh, hok]
  · intro d₀ hs₀ req₀ r hr
    unfold mcp_endpoint at hr
    by_cases hv₀ : req₀.jsonrpc ≠ "2.0"
    · rw [if_pos hv₀] at hr
      cases hr
    · rw [if_neg hv₀] at hr
      cases hdisp : dispatch_tool d₀ hs₀ req₀.method req₀.params with
      | ok w =>
        rw [hdisp] at hr
        cases hr
        exact Or.inl ⟨rfl, rfl⟩
      | error e =>
        rw [hdisp] at hr
        cases e with
        | valueError m =>
          cases hr
          exact Or.inr ⟨rfl, rfl⟩
        | notImplementedError m =>
          cases hr
          exact Or.inr ⟨rfl, rfl⟩
        | other m =>
          cases hr
          exact Or.inr ⟨rfl, rfl⟩

/-- Concrete run of `dispatch_success_passthrough`: the spec scenario
`{jsonrpc:"2.0", id:7, method:"echo.ping", params:{"msg":"hi"}}` with an
echoing `tool_echo_ping` yields `{id:7, result:{"msg":"hi"}}`. -/
theorem dispatch_success_witness :
    mcp_endpoint demoLookup echoEnv pingRequest
      = .response ⟨"2.0", some 7, some (.obj [("msg", Value.str "hi")]), none⟩ := by
  have hk : handler_key "echo.ping" = "tool_echo_ping" := by
    simp only [handler_key, func_name, pyReplace_dot]
    rfl
  have hh : echoEnv (handler_key pingRequest.method) = some (fun bag => .ok (.obj bag)) := by
    show echoEnv (handler_key "echo.ping") = _
    rw [hk]
    simp [echoEnv]
  exact (dispatch_success_passthrough demoLookup echoEnv pingRequest echoPing
    (fun bag => .ok (.obj bag)) (.obj [("msg", Value.str "hi")]) rfl rfl
    (by simp [echoPing]) hh rfl).1

/-! ### C3: catalog entry without a handler -/

/-- C3: a request naming a catalog tool with no handler under the
derived identifier yields an error envelope with code `-32601`; the
message embeds the name the caller used and differs from the
unknown-tool message for that name. -/
theorem unimplemented_tool_envelope (d : Dict) (handlers : HandlerEnv)
    (req : JSONRPCRequest) (td : Record)
    (hv : req.jsonrpc = "2.0")
    (hd : dictFind d (.str req.method) = some td) (hne : td ≠ [])
    (hh : handlers (handler_key req.method) = none) :
    mcp_endpoint d handlers req
        = .response ⟨"2.0", req.id, none,
            some ⟨-32601, "No handler implemented for tool \x27" ++ req.method ++ "\x27"⟩⟩ ∧
      (∃ a b, "No handler implemented for tool \x27" ++ req.method ++ "\x27"
          = a ++ req.method ++ b) ∧
      "No handler implemented for tool \x27" ++ req.method ++ "\x27"
        ≠ "Unknown tool \x27" ++ req.method ++ "\x27" := by
  refine ⟨?_, ⟨"No handler implemented for tool \x27", "\x27", rfl⟩,
    unimplemented_message_ne_unknown req.method⟩
  have hemp : td.isEmpty = false := by
    cases td with
    | nil => exact absurd rfl hne
    | cons a l => rfl
  simp [mcp_endpoint, dispatch_tool, hv, hd, hemp, hh]

/-- Concrete run of `unimplemented_tool_envelope`: `echo.ping` is in the
catalog but nothing implements `tool_echo_ping`. -/
theorem unimplemented_tool_witness :
    mcp_endpoint demoLookup noHandlers ⟨"2.0", some 7, "echo.ping", none⟩
      = .response ⟨"2.0", some 7, none,
          some ⟨-32601, "No handler implemented for tool \x27" ++ "echo.ping" ++ "\x27"⟩⟩ :=
  (unimplemented_tool_envelope demoLookup noHandlers
    ⟨"2.0", some 7, "echo.ping", none⟩ echoPing rfl rfl (by simp [echoPing]) rfl).1

/-! ### C1: unknown tool -/

/-- C1 counterexample: requesting `echo.pong` against the one-tool
catalog (the spec's own scenario) yields an error envelope with code
`-32603`, not `-32601`: the `ValueError` raised for an unknown tool is
caught by the generic `except Exception` clause, not the
`NotImplementedError` clause that produces `-32601`. -/
theorem unknown_tool_code_counterexample :
    mcp_endpoint demoLookup noHandlers pongRequest
        = .response ⟨"2.0", some 7, none,
            some ⟨-32603, "Unknown tool \x27" ++ "echo.pong" ++ "\x27"⟩⟩ ∧
      (-32603 : Int) ≠ -32601 := by
  have h1 : dictFind demoLookup (Value.str "echo.pong") = none := rfl
  refine ⟨?_, by decide⟩
  simp [mcp_endpoint, dispatch_tool, pongRequest, h1, PyExn.message]

/-- C1 (amended): a request naming a tool absent from the catalog
yields an error envelope with code `-32603` whose message embeds the
offending name, and the correlation id is echoed. -/
theorem unknown_tool_internal_error_envelope (d : Dict) (handlers : HandlerEnv)
    (req : JSONRPCRequest)
    (hv : req.jsonrpc = "2.0")
    (hd : dictFind d (.str req.method) = none) :
    mcp_endpoint d handlers req
        = .response ⟨"2.0", req.id, none,
            some ⟨-32603, "Unknown tool \x27" ++ req.method ++ "\x27"⟩⟩ ∧
      ∃ a b, "Unknown tool \x27" ++ req.method ++ "\x27" = a ++ req.method ++ b := by
  refine ⟨?_, ⟨"Unknown tool \x27", "\x27", rfl⟩⟩
  simp [mcp_endpoint, dispatch_tool, hv, hd, PyExn.message]

/-- Concrete run of `unknown_tool_internal_error_envelope` on the
`echo.pong` request. -/
theorem unknown_tool_internal_error_witness :
    mcp_endpoint demoLookup noHandlers pongRequest
        = .response ⟨"2.0", some 7, none,
            some ⟨-32603, "Unknown tool \x27" ++ "echo.pong" ++ "\x27"⟩⟩ ∧
      ∃ a b, "Unknown tool \x27" ++ "echo.pong" ++ "\x27" = a ++ "echo.pong" ++ b :=
  unknown_tool_internal_error_envelope demoLookup noHandlers pongRequest rfl rfl

/-! ### C4: exceptions raised by handlers -/

/-- C4 counterexample: a handler that raises `NotImplementedError` is
caught by the endpoint's dedicated `except NotImplementedError` clause
and mapped to `-32601`, not `-32603`, so not every handler-raised
exception yields the internal-error code. -/
theorem handler_exception_code_counterexample :
    mcp_endpoint demoLookup raisingEnv ⟨"2.0", some 1, "echo.ping", none⟩
        = .response ⟨"2.0", some 1, none, some ⟨-32601, "boom"⟩⟩ ∧
      (-32601 : Int) ≠ -32603 := by
  have hk : handler_key "echo.ping" = "tool_echo_ping" := by
    simp only [handler_key, func_name, pyReplace_dot]
    rfl
  have h1 : dictFind demoLookup (Value.str "echo.ping") = some echoPing := rfl
  refine ⟨?_, by decide⟩
  simp [mcp_endpoint, dispatch_tool, h1, echoPing, hk, raisingEnv]

/-- C4 (amended): a raised handler exception never escapes the endpoint:
it is always converted to a well-formed error envelope with the echoed
id and the exception's message, coded `-32603` except when the handler
raised `NotImplementedError`, which the endpoint's first `except` clause
maps to `-32601`. -/
theorem handler_exception_enveloped (d : Dict) (handlers : HandlerEnv)
    (req : JSONRPCRequest) (td : Record) (h : Handler) (e : PyExn)
    (hv : req.jsonrpc = "2.0")
    (hd : dictFind d (.str req.method) = some td) (hne : td ≠ [])
    (hh : handlers (handler_key req.method) = some h)
    (herr : h (req.params.getD []) = .error e) :
    mcp_endpoint d handlers req
      = .response ⟨"2.0", req.id, none, some ⟨exceptionCode e, e.message⟩⟩ := by
  have hemp : td.isEmpty = false := by
    cases td with
    | nil => exact absurd rfl hne
    | cons a l => rfl
  have hdisp : dispatch_tool d handlers req.method req.params = .error e := by
    simp [dispatch_tool, hd, hemp, hh, herr]
  cases e <;> simp [mcp_endpoint, hv, hdisp, exceptionCode, PyExn.message]

/-- Concrete run of `handler_exception_enveloped`: a handler raising an
ordinary exception with message `disk full` yields the `-32603`
envelope. -/
theorem handler_exception_enveloped_witness :
    mcp_endpoint demoLookup failEnv ⟨"2.0", some 2, "echo.ping", none⟩
      = .response ⟨"2.0", some 2, none, some ⟨-32603, "disk full"⟩⟩ := by
  have hk : handler_key "echo.ping" = "tool_echo_ping" := by
    simp only [handler_key, func_name, pyReplace_dot]
    rfl
  have hh : failEnv (handler_key "echo.ping")
      = some (fun _ => .error (.other "disk full")) := by
    rw [hk]
    simp [failEnv]
  exact handler_exception_enveloped demoLookup failEnv
    ⟨"2.0", some 2, "echo.ping", none⟩ echoPing
    (fun _ => .error (.other "disk full")) (.other "disk full") rfl rfl
    (by simp [echoPing]) hh rfl

/-! ### Registry lemmas -/

/-- Only a string value key-compares equal to a string key. -/
theorem keyEq_str_iff (v : Value) (s : String) :
    keyEq v (.str s) = true ↔ v = .str s := by
  cases v <;> simp [keyEq]

/-- Unfolding `d.get` one entry at a time. -/
theorem dictFind_cons (k₀ : Value) (v₀ : Record) (rest : Dict) (k : Value) :
    dictFind ((k₀, v₀) :: rest) k
      = if keyEq k₀ k then some v₀ else dictFind rest k := by
  by_cases h : keyEq k₀ k
  · simp [dictFind, List.find?, h]
  · simp only [Bool.not_eq_true] at h
    simp [dictFind, List.find?, h]

/-- Looking a string key up after a string-keyed insert: the inserted
record if the keys agree, the previous binding otherwise. -/
theorem dictFind_insert_str (acc : Dict) (s k : String) (r : Record) :
    dictFind (dictInsert acc (.str s) r) (.str k)
      = if s = k then some r else dictFind acc (.str k) := by
  induction acc with
  | nil =>
    by_cases h : s = k <;>
      simp [dictInsert, dictFind_cons, keyEq, h, dictFind]
  | cons e rest ih =>
    obtain ⟨k₀, v₀⟩ := e
    by_cases h0 : keyEq k₀ (.str s) = true
    · have hk₀ : k₀ = .str s := (keyEq_str_iff k₀ s).mp h0
      subst hk₀
      by_cases h : s = k <;>
        simp [dictInsert, dictFind_cons, keyEq, h]
    · simp only [Bool.not_eq_true] at h0
      have hrec : dictInsert ((k₀, v₀) :: rest) (.str s) r
          = (k₀, v₀) :: dictInsert rest (.str s) r := by
        simp [dictInsert, h0]
      rw [hrec, dictFind_cons, dictFind_cons, ih]
      by_cases hk : keyEq k₀ (.str k) = true
      · have hk₀ : k₀ = .str k := (keyEq_str_iff k₀ k).mp hk
        have hs : ¬ s = k := by
          intro h
          subst h
          rw [hk₀] at h0
          simp [keyEq] at h0
        simp [hk, hs]
      · simp only [Bool.not_eq_true] at hk
        simp [hk]

/-- Inserting a key that matches nothing in the dictionary appends. -/
theorem dictInsert_fresh (acc : Dict) (k : Value) (v : Record)
    (h : ∀ e ∈ acc, keyEq e.1 k = false) :
    dictInsert acc k v = acc ++ [(k, v)] := by
  induction acc with
  | nil => rfl
  | cons e rest ih =>
    obtain ⟨k₀, v₀⟩ := e
    have h0 : keyEq k₀ k = false := h (k₀, v₀) (List.mem_cons_self _ _)
    simp [dictInsert, h0,
      ih (fun e he => h e (List.mem_cons_of_mem _ he))]

/-- Building the lookup over records whose string names are fresh for
the accumulator and mutually distinct appends the entries in source
order. -/
theorem buildLookup_unique (tools : List Record) (names : List String)
    (hF : List.Forall₂
      (fun r s => lookupField r "name" = some (Value.str s)) tools names) :
    ∀ acc : Dict, names.Nodup →
      (∀ e ∈ acc, ∀ s ∈ names, keyEq e.1 (Value.str s) = false) →
      buildLookup acc tools
        = some (acc ++ List.zip (names.map Value.str) tools) := by
  induction hF with
  | nil =>
    intro acc _ _
    simp [buildLookup]
  | @cons r s tools' names' h1 h2 ih =>
    intro acc hnd hacc
    have hfresh : ∀ e ∈ acc, keyEq e.1 (Value.str s) = false :=
      fun e he => hacc e he s (List.mem_cons_self _ _)
    have hins : dictInsert acc (Value.str s) r = acc ++ [(Value.str s, r)] :=
      dictInsert_fresh acc (Value.str s) r hfresh
    have hnd' : names'.Nodup := hnd.of_cons
    have hsnot : s ∉ names' := by
      intro hmem
      exact (List.nodup_cons.mp hnd).1 hmem
    have hacc' : ∀ e ∈ acc ++ [(Value.str s, r)], ∀ t ∈ names',
        keyEq e.1 (Value.str t) = false := by
      intro e he t ht
      rcases List.mem_append.mp he with he' | he'
      · exact hacc e he' t (List.mem_cons_of_mem _ ht)
      · have : e = (Value.str s, r) := by simpa using he'
        subst this
        have hne : s ≠ t := fun h => hsnot (h ▸ ht)
        simp [keyEq, hne]
    calc buildLookup acc (r :: tools')
        = buildLookup (dictInsert acc (Value.str s) r) tools' := by
          simp [buildLookup, h1, Value.hashable]
      _ = some ((acc ++ [(Value.str s, r)])
            ++ List.zip (names'.map Value.str) tools') := by
          rw [hins]
          exact ih _ hnd' hacc'
      _ = some (acc ++ List.zip (((s :: names').map Value.str)) (r :: tools')) := by
          simp [List.zip]

/-- The values of the zipped entry list are the records themselves. -/
theorem zip_values (tools : List Record) (names : List String)
    (hF : List.Forall₂
      (fun r s => lookupField r "name" = some (Value.str s)) tools names) :
    (List.zip (names.map Value.str) tools).map (·.2) = tools := by
  induction hF with
  | nil => simp
  | @cons r s tools' names' h1 h2 ih => simp [List.zip_cons_cons, ih]

/-- A string key hits the zipped entry list exactly when it is one of
the names. -/
theorem dictFind_zip_isSome (tools : List Record) (names : List String)
    (hF : List.Forall₂
      (fun r s => lookupField r "name" = some (Value.str s)) tools names)
    (n : String) :
    (dictFind (List.zip (names.map Value.str) tools) (Value.str n)).isSome = true
      ↔ n ∈ names := by
  induction hF with
  | nil => simp [dictFind]
  | @cons r s tools' names' h1 h2 ih =>
    by_cases hn : s = n
    · subst hn
      simp [List.zip_cons_cons, dictFind_cons, keyEq]
    · have hb : (s == n) = false := by
        rw [beq_eq_false_iff_ne]
        exact hn
      have hns : ¬ n = s := fun h => hn h.symm
      simp [List.zip_cons_cons, dictFind_cons, keyEq, hb, ih, hn, hns]

/-- Some record carries name `n` exactly when `n` is one of the names
related to the records. -/
theorem exists_record_named_iff (tools : List Record) (names : List String)
    (hF : List.Forall₂
      (fun r s => lookupField r "name" = some (Value.str s)) tools names)
    (n : String) :
    (∃ r ∈ tools, lookupField r "name" = some (Value.str n)) ↔ n ∈ names := by
  induction hF with
  | nil => simp
  | @cons r s tools' names' h1 h2 ih =>
    constructor
    · rintro ⟨r', hr', hname⟩
      rcases List.mem_cons.mp hr' with rfl | hmem
      · rw [h1] at hname
        have : s = n := by simpa using hname
        exact this ▸ List.mem_cons_self _ _
      · exact List.mem_cons_of_mem _ (ih.mp ⟨r', hmem, hname⟩)
    · intro hn
      rcases List.mem_cons.mp hn with rfl | hmem
      · exact ⟨r, List.mem_cons_self _ _, h1⟩
      · obtain ⟨r', hr', hname⟩ := ih.mpr hmem
        exact ⟨r', List.mem_cons_of_mem _ hr', hname⟩

/-! ### C6: loading a catalog with unique names -/

/-- C6: for a catalog whose records carry pairwise-distinct string
names, loading and then listing returns exactly the source descriptors
in source order, and a lookup succeeds exactly when some source record
carries that name (compared by exact string equality). -/
theorem registry_load_unique_names (tools : List Record) (names : List String)
    (hF : List.Forall₂
      (fun r s => lookupField r "name" = some (Value.str s)) tools names)
    (hnd : names.Nodup) :
    get_tools (load_tools (some tools)) = tools ∧
      ∀ n : String,
        (dictFind (load_tools (some tools)) (Value.str n)).isSome = true ↔
          ∃ r ∈ tools, lookupField r "name" = some (Value.str n) := by
  have hb : buildLookup [] tools
      = some (List.zip (names.map Value.str) tools) := by
    simpa using buildLookup_unique tools names hF [] hnd (by simp)
  have hload : load_tools (some tools) = List.zip (names.map Value.str) tools := by
    simp [load_tools, hb]
  constructor
  · rw [hload]
    exact zip_values tools names hF
  · intro n
    rw [hload, dictFind_zip_isSome tools names hF n,
      exists_record_named_iff tools names hF n]

/-- Concrete run of `registry_load_unique_names` on the two-record
catalog with names `a.b` and `a_b`. -/
theorem registry_load_unique_names_witness :
    get_tools (load_tools (some collidingCatalog)) = collidingCatalog ∧
      ∀ n : String,
        (dictFind (load_tools (some collidingCatalog)) (Value.str n)).isSome = true ↔
          ∃ r ∈ collidingCatalog, lookupField r "name" = some (Value.str n) :=
  registry_load_unique_names collidingCatalog ["a.b", "a_b"]
    (by
      unfold collidingCatalog dotName underscoreName
      exact .cons rfl (.cons rfl .nil))
    (by decide)

/-! ### C7: duplicate names, last occurrence wins -/

/-- Records none of which carry name `n` leave the binding of `n`
untouched while the lookup is being built. -/
theorem buildLookup_preserves (B : List Record) (nB : List String)
    (hF : List.Forall₂
      (fun r s => lookupField r "name" = some (Value.str s)) B nB) :
    ∀ (acc : Dict) (n : String),
      (∀ r' ∈ B, lookupField r' "name" ≠ some (Value.str n)) →
      ∃ d, buildLookup acc B = some d ∧
        dictFind d (Value.str n) = dictFind acc (Value.str n) := by
  induction hF with
  | nil => exact fun acc n _ => ⟨acc, rfl, rfl⟩
  | @cons r s B' nB' h1 h2 ih =>
    intro acc n hB
    obtain ⟨d, hd, hf⟩ := ih (dictInsert acc (Value.str s) r) n
      (fun r' h => hB r' (List.mem_cons_of_mem _ h))
    refine ⟨d, by simp [buildLookup, h1, Value.hashable, hd], ?_⟩
    have hs : ¬ s = n := by
      intro h
      exact hB r (List.mem_cons_self _ _) (h ▸ h1)
    rw [hf, dictFind_insert_str]
    simp [hs]

/-- After the lookup passes the last record named `n`, that record is
the binding of `n` in the finished dictionary. -/
theorem buildLookup_hit (A : List Record) :
    ∀ (names : List String) (acc : Dict) (r : Record) (B : List Record) (n : String),
      List.Forall₂
        (fun r' s => lookupField r' "name" = some (Value.str s)) (A ++ r :: B) names →
      lookupField r "name" = some (Value.str n) →
      (∀ r' ∈ B, lookupField r' "name" ≠ some (Value.str n)) →
      ∃ d, buildLookup acc (A ++ r :: B) = some d ∧
        dictFind d (Value.str n) = some r := by
  induction A with
  | nil =>
    intro names acc r B n hF hr hB
    cases hF with
    | cons h1 h2 =>
      obtain ⟨d, hd, hf⟩ := buildLookup_preserves B _ h2
        (dictInsert acc (Value.str n) r) n hB
      refine ⟨d, by simp [buildLookup, hr, Value.hashable, hd], ?_⟩
      rw [hf, dictFind_insert_str]
      simp
  | cons a A' ih =>
    intro names acc r B n hF hr hB
    cases hF with
    | @cons _ s₀ _ _ h1 h2 =>
      obtain ⟨d, hd, hf⟩ := ih _ (dictInsert acc (Value.str s₀) a) r B n h2 hr hB
      exact ⟨d, by simp [buildLookup, h1, Value.hashable, hd], hf⟩

/-- C7: in a catalog where the name `n` occurs more than once, looking
`n` up after the load returns the descriptor of the last record named
`n` in the source sequence. -/
theorem registry_duplicate_last_wins (A B : List Record) (r : Record)
    (names : List String) (n : String)
    (hF : List.Forall₂
      (fun r' s => lookupField r' "name" = some (Value.str s)) (A ++ r :: B) names)
    (hr : lookupField r "name" = some (Value.str n))
    (hB : ∀ r' ∈ B, lookupField r' "name" ≠ some (Value.str n))
    (_hdup : ∃ r' ∈ A, lookupField r' "name" = some (Value.str n)) :
    dictFind (load_tools (some (A ++ r :: B))) (Value.str n) = some r := by
  obtain ⟨d, hd, hf⟩ := buildLookup_hit A names [] r B n hF hr hB
  simp [load_tools, hd, hf]

/-- Concrete run of `registry_duplicate_last_wins`: the name `dup`
appears twice with different metadata and the lookup returns the second
record. -/
theorem registry_duplicate_last_wins_witness :
    dictFind
        (load_tools (some
          [[("name", Value.str "dup"), ("v", Value.int 1)],
            [("name", Value.str "dup"), ("v", Value.int 2)]]))
        (Value.str "dup")
      = some [("name", Value.str "dup"), ("v", Value.int 2)] :=
  registry_duplicate_last_wins
    [[("name", Value.str "dup"), ("v", Value.int 1)]] []
    [("name", Value.str "dup"), ("v", Value.int 2)]
    ["dup", "dup"] "dup"
    (.cons rfl (.cons rfl .nil)) rfl
    (by intro r' h; cases h)
    ⟨[("name", Value.str "dup"), ("v", Value.int 1)], List.mem_cons_self _ _, rfl⟩

/-! ### C8: load failures degrade to an empty registry -/

/-- A successfully built lookup means every record had a name field. -/
theorem buildLookup_names_present (tools : List Record) :
    ∀ (acc d : Dict), buildLookup acc tools = some d →
      ∀ r ∈ tools, (lookupField r "name").isSome = true := by
  induction tools with
  | nil =>
    intro acc d _ r hr
    cases hr
  | cons t rest ih =>
    intro acc d h r hr
    simp only [buildLookup] at h
    split at h
    · cases h
    · rename_i k hname
      split at h
      · rcases List.mem_cons.mp hr with rfl | hr'
        · simp [hname]
        · exact ih _ _ h r hr'
      · cases h

/-- C8: a malformed catalog source, or one containing a record without
the required `name` field, never propagates the failure: the registry
degrades to empty and discovery returns the empty list. -/
theorem load_failure_empty_registry (source : CatalogSource)
    (h : source = none ∨
      ∃ tools, source = some tools ∧ ∃ r ∈ tools, lookupField r "name" = none) :
    load_tools source = [] ∧ get_tools (load_tools source) = [] := by
  have hempty : load_tools source = [] := by
    rcases h with rfl | ⟨tools, rfl, r, hr, hname⟩
    · rfl
    · cases hb : buildLookup [] tools with
      | none => simp [load_tools, hb]
      | some d =>
        have hsome := buildLookup_names_present tools [] d hb r hr
        rw [hname] at hsome
        cases hsome
  exact ⟨hempty, by rw [hempty]; rfl⟩

/-- Concrete run of `load_failure_empty_registry`: a catalog whose only
record lacks a `name` field loads as the empty registry. -/
theorem load_failure_empty_registry_witness :
    load_tools (some [[("description", Value.str "no name here")]]) = [] ∧
      get_tools (load_tools (some [[("description", Value.str "no name here")]])) = [] :=
  load_failure_empty_registry (some [[("description", Value.str "no name here")]])
    (Or.inr ⟨[[("description", Value.str "no name here")]], rfl,
      [("description", Value.str "no name here")], List.mem_cons_self _ _, rfl⟩)
